import Mathlib

/-!
Verification development for the InEx-Bug issue harvester.

Shallow embedding of the core of `harvest_data.py` (the closing-method
resolver `find_closing_method`, the calculators `calculate_timestamps` and
`calculate_reopen_metrics`) and of `bot_detect.py` (`detect_bot_close`).

Modelling choices, stated once:

* A timestamp-valued field in the source is a Python value that is either
  `None`, an empty/absent string, or a well-formed zero-padded UTC ISO-8601
  string.  For such strings lexicographic order coincides with chronological
  order, so a well-formed string is modelled by its numeric value in seconds
  (`PyTs.pts n`).  `PyTs.pempty` covers both an absent dictionary key and the
  empty string: the two are indistinguishable in every use the embedded code
  makes of them (`dict.get(k, "")` keys, truthiness, `parse_timestamp`).
  `PyTs.pnone` is a present `None` value, which is distinguishable: Python
  raises `TypeError` when `None` meets a string in an order comparison, which
  is why `min`/`max`/`sorted` over keys are embedded as `Except`-valued
  functions.

* Network access (`extract_pr_metrics`, the `commits/{sha}/pulls` query,
  `extract_commit_metrics`) is an external collaborator; it is modelled as an
  `Oracle` of pure functions, and every invocation is recorded in a `Call`
  trace so that "no fetch is performed" is a statable property.
  `extract_pr_metrics` and `extract_commit_metrics` swallow their own fetch
  exceptions and return `None` on failure, so they are `Option`-valued; the
  bare `fetch` of the pulls query can raise, so it is `Except`-valued.
-/

namespace Harvest

/-- A Python timestamp-ish value: `None`, an empty-or-absent string, or a
well-formed zero-padded UTC timestamp whose chronological value is `n`
seconds. -/
inductive PyTs where
  | pnone : PyTs
  | pempty : PyTs
  | pts : Nat → PyTs
deriving DecidableEq, Repr

/-- Python truthiness of a timestamp value: only a non-empty string is
truthy. -/
def PyTs.truthy : PyTs → Bool
  | .pts _ => true
  | _ => false

/-- Embeds `parse_timestamp` (harvest_data.py line 31): falsy input (None or
empty string) gives `None`, a well-formed string parses to its instant. -/
def parse_timestamp : PyTs → Option Nat
  | .pts n => some n
  | _ => none

/-- Embeds `calculate_time_diff` (line 37): seconds from `s` to `e`, `None`
if either endpoint fails to parse. -/
def calculate_time_diff (s e : PyTs) : Option Int :=
  match parse_timestamp s, parse_timestamp e with
  | some a, some b => some ((b : Int) - (a : Int))
  | _, _ => none

/-- Rank of a non-None key value under Python string order: the empty string
sorts before every well-formed timestamp, and timestamps sort by value.
(`pnone` is given rank 0 but is never compared through this function.) -/
def kv : PyTs → Nat
  | .pnone => 0
  | .pempty => 0
  | .pts n => n + 1

/-- Python `<` on two sort-key values: raises (`.error`) as soon as a `None`
is involved, otherwise string comparison. -/
def keyLt : PyTs → PyTs → Except Unit Bool
  | .pnone, _ => .error ()
  | _, .pnone => .error ()
  | a, b => .ok (decide (kv a < kv b))

/-- Pure string comparison on keys, used by the sort once `None` keys have
been excluded. -/
def keyLtB (a b : PyTs) : Bool := decide (kv a < kv b)

/-- Embeds Python `min(cur :: rest, key=key)`: scans left to right keeping
the first minimum, raising if a comparison meets `None`. -/
def pyMinByAux (key : α → PyTs) (cur : α) : List α → Except Unit α
  | [] => .ok cur
  | x :: xs =>
    match keyLt (key x) (key cur) with
    | .error u => .error u
    | .ok b => pyMinByAux key (if b then x else cur) xs

/-- Embeds Python `max(cur :: rest, key=key)`: scans left to right keeping
the first maximum, raising if a comparison meets `None`. -/
def pyMaxByAux (key : α → PyTs) (cur : α) : List α → Except Unit α
  | [] => .ok cur
  | x :: xs =>
    match keyLt (key cur) (key x) with
    | .error u => .error u
    | .ok b => pyMaxByAux key (if b then x else cur) xs

/-- Stable insertion of `x` into a descending-by-key list: `x` goes after
every earlier element whose key is not smaller. -/
def insertDesc (key : α → PyTs) (x : α) : List α → List α
  | [] => [x]
  | y :: ys => if keyLtB (key y) (key x) then x :: y :: ys else y :: insertDesc key x ys

/-- Embeds Python `sorted(l, key=key, reverse=True)`: any list of length at
least two containing a `None` key raises (every element of a sorted list of
length two or more takes part in at least one key comparison); otherwise the
stable descending sort. -/
def pySortedDesc (key : α → PyTs) (l : List α) : Except Unit (List α) :=
  if 2 ≤ l.length && l.any (fun x => key x == PyTs.pnone) then .error ()
  else .ok (l.foldl (fun acc x => insertDesc key x acc) [])

/-- The `source` payload of a timeline event: `source.get("type")` and
`source.get("issue", {}).get("number")` collapsed to the two fields the
resolver reads. -/
structure SourceRef where
  type : Option String
  issueNumber : Option Nat
deriving DecidableEq, Repr

/-- A timeline event, restricted to the fields the embedded code reads:
`event`, `created_at`, `source`, `commit_id`, `commit_url`. -/
structure Event where
  kind : Option String
  createdAt : PyTs
  source : Option SourceRef
  commitId : Option String
  commitUrl : Option String
deriving DecidableEq, Repr

/-- The slice of an `extract_pr_metrics` result that the resolver inspects:
`merged_at` (already parsed; `none` covers a null or empty value, for which
the source's `merged` flag is false and parsing yields `None`). -/
structure PRMetrics where
  number : Option Nat
  mergedAt : Option Nat
deriving DecidableEq, Repr

/-- The `merged` field of the PR-metrics dict: `bool(pr_data.get("merged_at"))`. -/
def PRMetrics.merged (p : PRMetrics) : Bool := p.mergedAt.isSome

/-- An `extract_commit_metrics` result, opaque to the resolver's control
flow. -/
structure CommitMetrics where
  sha : String
deriving DecidableEq, Repr

/-- One candidate fetch performed through the external collaborator:
a PR detail fetch (`extract_pr_metrics`), a `commits/{sha}/pulls` query, or
a commit detail fetch (`extract_commit_metrics`). -/
inductive Call where
  | pr (n : Option Nat)
  | pulls (sha : String)
  | commit (sha : String)
deriving DecidableEq, Repr

/-- The external fetch collaborator, fixed for one resolution.
`prMetrics`/`commitDetails` return `none` on any fetch failure (the source
catches those exceptions internally); `commitPulls` may raise. -/
structure Oracle where
  prMetrics : Option Nat → Option PRMetrics
  commitPulls : String → Except Unit (List (Option Nat))
  commitDetails : String → Option CommitMetrics

/-- Absolute difference of two instants in seconds. -/
def tgap (a b : Nat) : Nat := max a b - min a b

/-- Outcome of the candidate-validation block that the source repeats at
each strategy: accepted, rejected because merged before issue creation,
rejected because merged too far from issue close, or no judgement (fetch
failed, PR unmerged, or a required timestamp missing). -/
inductive Verdict where
  | accept
  | rejectEarly
  | rejectWindow
  | noJudge
deriving DecidableEq, Repr

/-- The shared validation block (`if pr_metrics and pr_metrics.get("merged")
... if pr_merged_time and issue_created_time and issue_closed_time ...`),
parameterised by the plausibility window: 86400 at its strategy-1 call site
(line 460), 604800 at strategies 2, 3 and 4 (lines 488, 518, 545, 582). -/
def judge (window : Nat) (pmOpt : Option PRMetrics) (ict icl : Option Nat) : Verdict :=
  match pmOpt with
  | none => .noJudge
  | some pm =>
    if pm.merged then
      match pm.mergedAt, ict, icl with
      | some mt, some ct, some cl =>
        if mt < ct then .rejectEarly
        else if window < tgap mt cl then .rejectWindow
        else .accept
      | _, _, _ => .noJudge
    else .noJudge

/-- Python truthiness of an optional number (`if pr_number:`). -/
def truthyNum : Option Nat → Bool
  | some n => n != 0
  | none => false

/-- Python truthiness of an optional string (`if commit_sha:`). -/
def truthyStr : Option String → Bool
  | some s => s != ""
  | none => false

/-- `event.get("source", {})`. -/
def getSource (e : Event) : SourceRef := e.source.getD ⟨none, none⟩

/-- The resolver's result pair `(closing_pr, closing_commit)`. -/
abbrev Res := Option PRMetrics × Option CommitMetrics

/-- Outcome of one candidate-examination step inside a strategy, with the
fetches it performed: `ret` is a `return` from the resolver, `skip` is an
explicit `continue` (validation rejection), `pass` is falling off the end of
the step with no judgement reached. -/
inductive RefOut where
  | ret (r : Res) (calls : List Call)
  | skip (calls : List Call)
  | pass (calls : List Call)
deriving DecidableEq, Repr

/-- The PR-shaped-source examination step shared by strategies 1, 2 and 3(a)
(lines 443-463, 471-492, 501-522): if the event's `source` has type
`"issue"` and a truthy number, fetch that PR and run validation. -/
def prSourceStep (o : Oracle) (window : Nat) (ict icl : Option Nat) (e : Event) : RefOut :=
  if (getSource e).type == some "issue" then
    match (getSource e).issueNumber with
    | some n =>
      if n != 0 then
        match judge window (o.prMetrics (some n)) ict icl with
        | .accept => .ret (o.prMetrics (some n), none) [.pr (some n)]
        | .rejectEarly => .skip [.pr (some n)]
        | .rejectWindow => .skip [.pr (some n)]
        | .noJudge => .pass [.pr (some n)]
      else .pass []
    | none => .pass []
  else .pass []

/-- The commit-based lookup of strategy 3 (lines 525-551): query the PRs
associated with the event's commit; a raised fetch is caught by the
surrounding `try`/`except` and `continue`s; an empty PR list falls off the
end of the loop body. -/
def commitStep3 (o : Oracle) (ict icl : Option Nat) (sha : String) : RefOut :=
  match o.commitPulls sha with
  | .error _ => .skip [.pulls sha]
  | .ok [] => .pass [.pulls sha]
  | .ok (n0 :: _) =>
    match judge 604800 (o.prMetrics n0) ict icl with
    | .accept => .ret (o.prMetrics n0, none) [.pulls sha, .pr n0]
    | .rejectEarly => .skip [.pulls sha, .pr n0]
    | .rejectWindow => .skip [.pulls sha, .pr n0]
    | .noJudge => .pass [.pulls sha, .pr n0]

/-- The body of the strategy-3 loop (lines 499-551): the PR-shaped-source
step, then — unless that step returned or explicitly `continue`d — the
commit-based lookup when the event carries a truthy `commit_id`. -/
def strategy3Body (o : Oracle) (ict icl : Option Nat) (e : Event) : RefOut :=
  match prSourceStep o 604800 ict icl e with
  | .ret r cs => .ret r cs
  | .skip cs => .skip cs
  | .pass cs =>
    if truthyStr e.commitId then
      match commitStep3 o ict icl (e.commitId.getD "") with
      | .ret r cs2 => .ret r (cs ++ cs2)
      | .skip cs2 => .skip (cs ++ cs2)
      | .pass cs2 => .pass (cs ++ cs2)
    else .pass cs

/-- A strategy's `for` loop over its (sorted) event list: `skip` and `pass`
both move to the next event; `ret` returns from the resolver. -/
def refLoop (body : Event → RefOut) : List Event → Option Res × List Call
  | [] => (none, [])
  | e :: es =>
    match body e with
    | .ret r cs => (some r, cs)
    | .skip cs =>
      match refLoop body es with
      | (r, cs2) => (r, cs ++ cs2)
    | .pass cs =>
      match refLoop body es with
      | (r, cs2) => (r, cs ++ cs2)

/-- Last path segment of `commit_url`:
`commit_url.rstrip('/').split('/')[-1]` (lines 558-560). -/
def trailingSegment (url : String) : String :=
  (((url.toList.reverse.dropWhile (fun c => c == '/')).reverse).asString.splitOn "/").getLastD ""

/-- Strategy 4's commit-identifier extraction (lines 554-562): the close
event's `commit_id`, or failing that the trailing path segment of its
`commit_url`; `none` when the final value is falsy. -/
def extractSha (ce : Event) : Option String :=
  let sha0 := ce.commitId
  let sha1 :=
    if !truthyStr sha0 && truthyStr ce.commitUrl then
      some (trailingSegment (ce.commitUrl.getD ""))
    else sha0
  match sha1 with
  | some s => if s != "" then some s else none
  | none => none

/-- Strategy 4 (lines 553-594): from the close event's commit, query the
associated PRs; a non-empty list validates its first PR, every non-accepting
outcome (raised fetch, failed validation, or no judgement) reaching the
final `return None, None`; an empty list attributes the close to the direct
commit. -/
def strategy4 (o : Oracle) (ict icl : Option Nat) (ce : Event) : Res × List Call :=
  match extractSha ce with
  | none => ((none, none), [])
  | some s =>
    match o.commitPulls s with
    | .error _ => ((none, none), [.pulls s])
    | .ok [] => ((none, o.commitDetails s), [.pulls s, .commit s])
    | .ok (n0 :: _) =>
      match judge 604800 (o.prMetrics n0) ict icl with
      | .accept => ((o.prMetrics n0, none), [.pulls s, .pr n0])
      | .rejectEarly => ((none, none), [.pulls s, .pr n0])
      | .rejectWindow => ((none, none), [.pulls s, .pr n0])
      | .noJudge => ((none, none), [.pulls s, .pr n0])

/-- Strategies 2, 3 and 4 of the resolver (lines 465-594), run after
strategy 1 has fallen through.  The source guards its loops with
`if cross_ref_events:` / `if referenced_events:`; sorting and looping over
an empty list is a no-op, so the guards are dropped without change of
behaviour. -/
def find_rest (o : Oracle) (ict icl : Option Nat) (ce : Event) (events : List Event) :
    Except Unit (Res × List Call) :=
  match pySortedDesc (fun e => e.createdAt)
      (events.filter (fun e => e.kind == some "cross-referenced")) with
  | .error u => .error u
  | .ok sorted2 =>
    match refLoop (prSourceStep o 604800 ict icl) sorted2 with
    | (some r, cs) => .ok (r, cs)
    | (none, cs2) =>
      match pySortedDesc (fun e => e.createdAt)
          (events.filter (fun e => e.kind == some "referenced")) with
      | .error u => .error u
      | .ok sorted3 =>
        match refLoop (strategy3Body o ict icl) sorted3 with
        | (some r, cs) => .ok (r, cs2 ++ cs)
        | (none, cs3) =>
          match strategy4 o ict icl ce with
          | (r4, cs4) => .ok (r4, cs2 ++ cs3 ++ cs4)

/-- Embeds `find_closing_method` (lines 419-594), returning the result pair
and the trace of candidate fetches; `.error` is a raised `TypeError` from a
`None` timestamp meeting a string in `max`/`sorted`. -/
def find_closing_method (o : Oracle) (issue_created_at issue_closed_at : PyTs)
    (events : List Event) : Except Unit (Res × List Call) :=
  if !issue_closed_at.truthy then .ok ((none, none), [])
  else
    match events.filter (fun e => e.kind == some "closed") with
    | [] => .ok ((none, none), [])
    | ce0 :: ces =>
      match pyMaxByAux (fun e => e.createdAt) ce0 ces with
      | .error u => .error u
      | .ok closed_event =>
        match prSourceStep o 86400 (parse_timestamp issue_created_at)
            (parse_timestamp issue_closed_at) closed_event with
        | .ret r cs => .ok (r, cs)
        | .skip cs1 =>
          match find_rest o (parse_timestamp issue_created_at)
              (parse_timestamp issue_closed_at) closed_event events with
          | .error u => .error u
          | .ok p => .ok (p.1, cs1 ++ p.2)
        | .pass cs1 =>
          match find_rest o (parse_timestamp issue_created_at)
              (parse_timestamp issue_closed_at) closed_event events with
          | .error u => .error u
          | .ok p => .ok (p.1, cs1 ++ p.2)

/-- An issue, restricted to the fields the embedded code reads. -/
structure Issue where
  createdAt : PyTs
  closedAt : PyTs
  state : Option String
  userLogin : Option String
deriving DecidableEq, Repr

/-- The `closing_pr`/`closing_commit` portion of `build_output`
(lines 626-635): the resolver runs only when the issue's state is
`"closed"`; otherwise both fields stay `None`. -/
def closing_fields (o : Oracle) (issue : Issue) (events : List Event) :
    Except Unit (Res × List Call) :=
  if issue.state == some "closed" then
    find_closing_method o issue.createdAt issue.closedAt events
  else .ok ((none, none), [])

/-- A comment, restricted to the fields the embedded code reads:
`created_at` and `user.login`. -/
structure Comment where
  createdAt : PyTs
  userLogin : Option String
deriving DecidableEq, Repr

/-- Models `round(seconds / 86400, 2)` in hundredths of a day; the exact
floating-point rounding mode is immaterial here, only presence/absence of
the value is reasoned about. -/
def roundDays (secs : Int) : Int := secs * 100 / 86400

/-- The output record of `calculate_timestamps`. -/
structure TsMetrics where
  time_to_close_seconds : Option Int
  time_to_first_comment_seconds : Option Int
  time_to_first_response_seconds : Option Int
  time_open_days : Option Int
deriving DecidableEq, Repr

/-- Embeds `calculate_timestamps` (lines 226-265).  The three blocks of the
source: time-to-close when both issue timestamps are truthy; first comment
(minimum `created_at` over all comments) when comments exist and the
creation timestamp is truthy; first response (minimum over the comments
whose `user.login` differs from the issue author's) under the same guard.
`.error` is the `TypeError` raised when a `min` key comparison meets
`None`. -/
def calculate_timestamps (issue : Issue) (comments : List Comment) :
    Except Unit TsMetrics :=
  let ttc : Option Int :=
    if issue.createdAt.truthy && issue.closedAt.truthy then
      calculate_time_diff issue.createdAt issue.closedAt
    else none
  let days : Option Int := ttc.map roundDays
  match comments, issue.createdAt.truthy with
  | [], _ => .ok ⟨ttc, none, none, days⟩
  | _ :: _, false => .ok ⟨ttc, none, none, days⟩
  | c0 :: cs, true =>
    match pyMinByAux (fun c => c.createdAt) c0 cs with
    | .error u => .error u
    | .ok fc =>
      let ttfc := calculate_time_diff issue.createdAt fc.createdAt
      match (c0 :: cs).filter (fun c => !(c.userLogin == issue.userLogin)) with
      | [] => .ok ⟨ttc, ttfc, none, days⟩
      | o0 :: os =>
        match pyMinByAux (fun c => c.createdAt) o0 os with
        | .error u => .error u
        | .ok fr =>
          .ok ⟨ttc, ttfc, calculate_time_diff issue.createdAt fr.createdAt, days⟩

/-- The output record of `calculate_reopen_metrics`. -/
structure ReopenMetrics where
  was_reopened : Bool
  reopen_count : Nat
  time_to_reopen_seconds : Option Int
  final_resolution_time_seconds : Option Int
  reopen_timestamps : List PyTs
deriving DecidableEq, Repr

/-- Embeds `calculate_reopen_metrics` (lines 183-223): defaults when no
`reopened` event exists; otherwise time from the first `closed` event to
the first `reopened` event (both first-by-minimum-`created_at`), and the
creation-to-close span when the issue's state is `"closed"`.  `.error` is
the `TypeError` raised when a `min` key comparison meets `None`. -/
def calculate_reopen_metrics (issue : Issue) (events : List Event) :
    Except Unit ReopenMetrics :=
  let closed_events := events.filter (fun e => e.kind == some "closed")
  let reopened_events := events.filter (fun e => e.kind == some "reopened")
  match reopened_events with
  | [] => .ok ⟨false, 0, none, none, []⟩
  | r0 :: rs =>
    let ttr : Except Unit (Option Int) :=
      match closed_events with
      | [] => .ok none
      | c0 :: cs =>
        match pyMinByAux (fun e => e.createdAt) c0 cs with
        | .error u => .error u
        | .ok fc =>
          match pyMinByAux (fun e => e.createdAt) r0 rs with
          | .error u => .error u
          | .ok fr => .ok (calculate_time_diff fc.createdAt fr.createdAt)
    match ttr with
    | .error u => .error u
    | .ok t =>
      let frt : Option Int :=
        if issue.state == some "closed" then
          if issue.createdAt.truthy && issue.closedAt.truthy then
            calculate_time_diff issue.createdAt issue.closedAt
          else none
        else none
      .ok ⟨true, (r0 :: rs).length, t, frt, (r0 :: rs).map (fun e => e.createdAt)⟩

/-- A result pair produced by an accepting validation at window `w` with
issue instants `ict`/`icl`: some merged PR, no commit component, merge not
before creation, merge within `w` seconds of close. -/
def ValidRet (w : Nat) (ict icl : Option Nat) (r : Res) : Prop :=
  ∃ pm mt ct cl, r = (some pm, none) ∧ pm.mergedAt = some mt ∧
    ict = some ct ∧ icl = some cl ∧ ct ≤ mt ∧ tgap mt cl ≤ w

/-- Numeric value of a well-formed timestamp (0 on the degenerate cases,
which the statements using it exclude). -/
def tsv : PyTs → Nat
  | .pts n => n
  | _ => 0

/-- Event with a PR-shaped `source`: type `"issue"` and a truthy number. -/
def prShaped (e : Event) : Bool :=
  (getSource e).type == some "issue" && truthyNum (getSource e).issueNumber

/-- Prepend already-performed calls to a step outcome. -/
def appendCalls (cs : List Call) : RefOut → RefOut
  | .ret r cs2 => .ret r (cs ++ cs2)
  | .skip cs2 => .skip (cs ++ cs2)
  | .pass cs2 => .pass (cs ++ cs2)

end Harvest

namespace BotDetect

/-- A JSON value as Python sees it after `json.loads`. -/
inductive JVal where
  | jnull
  | jbool (b : Bool)
  | jnum (n : Int)
  | jstr (s : String)
  | jarr (items : List JVal)
  | jobj (fields : List (String × JVal))

/-- Python truthiness of a JSON value. -/
def jTruthy : JVal → Bool
  | .jnull => false
  | .jbool b => b
  | .jnum n => n != 0
  | .jstr s => s != ""
  | .jarr items => !items.isEmpty
  | .jobj fields => !fields.isEmpty

/-- `dict.get(k)` with a `None` default (an absent key and a present
`null` are indistinguishable to every use the embedded code makes of the
result); on duplicate keys `json.loads` keeps the last occurrence. -/
def jget (v : JVal) (k : String) : JVal :=
  match v with
  | .jobj fields =>
    match fields.reverse.find? (fun p => p.1 == k) with
    | some p => p.2
    | none => .jnull
  | _ => .jnull

/-- `isinstance(v, dict)`. -/
def isObj : JVal → Bool
  | .jobj _ => true
  | _ => false

/-- `str.strip()`: drop leading and trailing whitespace. -/
def pyStrip (s : String) : String :=
  ⟨((s.data.dropWhile Char.isWhitespace).reverse.dropWhile Char.isWhitespace).reverse⟩

/-- `str.lower()` (ASCII case folding, which covers the comparisons the
source performs against its two ASCII bot names). -/
def pyLower (s : String) : String := ⟨s.data.map Char.toLower⟩

/-- `uname.strip().lower()`. -/
def normalize (s : String) : String := pyLower (pyStrip s)

/-- Embeds `detect_bot_close` (bot_detect.py lines 16-31). -/
def detect_bot_close (issue : JVal) : Bool :=
  if !isObj issue then false
  else
    let closed_by := jget issue "closed_by"
    if !isObj closed_by then false
    else
      let u1 := jget closed_by "username"
      let uname := if jTruthy u1 then u1 else jget closed_by "login"
      match uname with
      | .jstr s => normalize s == "stale[bot]" || normalize s == "vue-bot"
      | _ => false

/-- Key-presence test, needed to state the claim's reading of the
username/login choice. -/
def jhas (v : JVal) (k : String) : Bool :=
  match v with
  | .jobj fields => fields.any (fun p => p.1 == k)
  | _ => false

/-- Modelled from the claim's wording, for comparison with the source:
consult `login` only when the `username` key is absent (the source instead
falls back to `login` whenever `username` is falsy). -/
def detect_bot_close_claimed (issue : JVal) : Bool :=
  if !isObj issue then false
  else
    let closed_by := jget issue "closed_by"
    if !isObj closed_by then false
    else
      let uname :=
        if jhas closed_by "username" then jget closed_by "username"
        else jget closed_by "login"
      match uname with
      | .jstr s => normalize s == "stale[bot]" || normalize s == "vue-bot"
      | _ => false

end BotDetect

open Harvest

open BotDetect

/-! Concrete scenarios used to exercise the theorems below. -/

/-- A merged PR candidate (number 3, merged at t = 90). -/
def prS1 : PRMetrics := ⟨some 3, some 90⟩

/-- Oracle for the strategy-1 success scenario: PR 3 resolves, nothing else
exists. -/
def oracleS1 : Oracle where
  prMetrics := fun n => if n == some 3 then some prS1 else none
  commitPulls := fun _ => .ok []
  commitDetails := fun _ => none

/-- A close event whose `source` directly references PR 3. -/
def ceS1 : Event := ⟨some "closed", .pts 100, some ⟨some "issue", some 3⟩, none, none⟩

/-- Issue snapshot for the strategy-1 scenario. -/
def issueS1 : Issue := ⟨.pts 0, .pts 100, some "closed", none⟩

/-- A merged PR candidate (number 7, merged at t = 50). -/
def pr7 : PRMetrics := ⟨some 7, some 50⟩

/-- Oracle for the strategy-3 fall-through scenario: fetching PR 5 fails,
commit `abc` is associated with PR 7, and PR 7 resolves. -/
def oracleC5 : Oracle where
  prMetrics := fun n => if n == some 7 then some pr7 else none
  commitPulls := fun s => if s == "abc" then .ok [some 7] else .ok []
  commitDetails := fun _ => none

/-- A close event with no source and no commit. -/
def ceC5 : Event := ⟨some "closed", .pts 10, none, none, none⟩

/-- A `referenced` event whose source is PR-shaped (PR 5) and which also
carries commit id `abc`. -/
def refC5 : Event := ⟨some "referenced", .pts 9, some ⟨some "issue", some 5⟩, some "abc", none⟩

/-- A close event carrying only a commit id. -/
def ce4 : Event := ⟨some "closed", .pts 1, none, some "dead", none⟩

/-- Oracle for the direct-commit scenario: no PR is associated with commit
`dead`, whose details resolve. -/
def oracle4 : Oracle where
  prMetrics := fun _ => none
  commitPulls := fun _ => .ok []
  commitDetails := fun s => if s == "dead" then some ⟨"dead"⟩ else none

/-- Boundary-value PR candidate for the plausibility windows (merged at
t = 100). -/
def prW : PRMetrics := ⟨some 1, some 100⟩

/-- Issue snapshot created at t = 0 by `alice`, still open. -/
def issue9 : Issue := ⟨.pts 0, .pempty, some "open", some "alice"⟩

/-- The claim's example comment set: `alice` at t = 0, `bob` at t = 100. -/
def comments9 : List Comment := [⟨.pts 0, some "alice"⟩, ⟨.pts 100, some "bob"⟩]

/-- Issue snapshot with both timestamps missing, state closed. -/
def issue6 : Issue := ⟨.pempty, .pempty, some "closed", some "alice"⟩

/-- Comment set with a present-but-null `created_at` next to a well-formed
one. -/
def comments6 : List Comment := [⟨.pnone, some "x"⟩, ⟨.pts 100, some "y"⟩]

/-- Timeline with two `closed` events, one carrying a null `created_at`,
and one `reopened` event. -/
def events6 : List Event :=
  [⟨some "closed", .pnone, none, none, none⟩,
   ⟨some "closed", .pts 1, none, none, none⟩,
   ⟨some "reopened", .pts 2, none, none, none⟩]

/-- Comment set with an absent-key `created_at` only. -/
def comments6W : List Comment := [⟨.pempty, none⟩]

/-- Timeline with one `reopened` event whose `created_at` is absent. -/
def events6W : List Event := [⟨some "reopened", .pempty, none, none, none⟩]

/-- The C10 counterexample input: `username` present but empty, `login`
equal to `vue-bot`. -/
def cex10 : JVal :=
  .jobj [("closed_by", .jobj [("username", .jstr ""), ("login", .jstr "vue-bot")])]

/-- A bot-closed issue input. -/
def bot10 : JVal := .jobj [("closed_by", .jobj [("username", .jstr "  Stale[Bot] ")])]

/-! Helper lemmas. -/

/-- An accepting validation pins down every quantity it checked. -/
theorem judge_accept_elim {w : Nat} {p : Option PRMetrics} {ict icl : Option Nat}
    (h : judge w p ict icl = .accept) :
    ∃ pm mt ct cl, p = some pm ∧ pm.mergedAt = some mt ∧ ict = some ct ∧
      icl = some cl ∧ ct ≤ mt ∧ tgap mt cl ≤ w := by
  match p with
  | none => simp [judge] at h
  | some pm =>
    rcases hm : pm.mergedAt with _ | mt <;>
      rcases hi : ict with _ | ct <;>
        rcases hc : icl with _ | cl <;>
          simp only [judge, PRMetrics.merged, hm, hi, hc, Option.isSome_none,
            Option.isSome_some, Bool.false_eq_true, if_false, if_true, reduceCtorEq] at h
    split at h
    · simp at h
    · split at h
      · simp at h
      · exact ⟨pm, mt, ct, cl, rfl, hm, rfl, rfl,
          Nat.le_of_not_lt (by assumption), Nat.le_of_not_lt (by assumption)⟩

/-- Comparison of two non-None keys is Python string comparison. -/
theorem keyLt_ok {a b : PyTs} (ha : a ≠ .pnone) (hb : b ≠ .pnone) :
    keyLt a b = .ok (keyLtB a b) := by
  cases a <;> cases b <;> simp_all [keyLt, keyLtB]

/-- When no key is None, the embedded `min` succeeds and returns a member
whose key is minimal. -/
theorem pyMinByAux_sound {α : Type} (key : α → PyTs) :
    ∀ (cs : List α) (c0 : α), key c0 ≠ .pnone → (∀ x ∈ cs, key x ≠ .pnone) →
    ∃ c, pyMinByAux key c0 cs = .ok c ∧ (c = c0 ∨ c ∈ cs) ∧
      kv (key c) ≤ kv (key c0) ∧ ∀ x ∈ cs, kv (key c) ≤ kv (key x) := by
  intro cs
  induction cs with
  | nil =>
    intro c0 h0 _
    exact ⟨c0, rfl, Or.inl rfl, Nat.le_refl _, by simp⟩
  | cons x xs ih =>
    intro c0 h0 hall
    have hx : key x ≠ .pnone := hall x (by simp)
    have hxs : ∀ y ∈ xs, key y ≠ .pnone := fun y hy => hall y (by simp [hy])
    have hnext : key (if keyLtB (key x) (key c0) then x else c0) ≠ .pnone := by
      split <;> assumption
    obtain ⟨c, hc, hmem, hle, hmin⟩ := ih _ hnext hxs
    refine ⟨c, ?_, ?_, ?_, ?_⟩
    · unfold pyMinByAux
      rw [keyLt_ok hx h0]
      exact hc
    · by_cases hb : keyLtB (key x) (key c0)
      · simp only [hb, if_true] at hmem
        rcases hmem with rfl | hmem
        · exact Or.inr (by simp)
        · exact Or.inr (by simp [hmem])
      · simp only [hb, if_false] at hmem
        rcases hmem with rfl | hmem
        · exact Or.inl rfl
        · exact Or.inr (by simp [hmem])
    · by_cases hb : keyLtB (key x) (key c0)
      · simp only [hb, if_true] at hle
        have hlt : kv (key x) < kv (key c0) := by simpa [keyLtB] using hb
        exact Nat.le_of_lt (Nat.lt_of_le_of_lt hle hlt)
      · simpa only [hb, if_false] using hle
    · intro y hy
      rcases List.mem_cons.mp hy with rfl | hy2
      · by_cases hb : keyLtB (key y) (key c0)
        · simpa only [hb, if_true] using hle
        · have hnlt : ¬ kv (key y) < kv (key c0) := by
            intro hlt
            exact hb (by simp [keyLtB, hlt])
          have hge : kv (key c0) ≤ kv (key y) := Nat.le_of_not_lt hnlt
          have hle0 : kv (key c) ≤ kv (key c0) := by simpa only [hb, if_false] using hle
          exact Nat.le_trans hle0 hge
      · exact hmin y hy2

/-- Every `return` out of the PR-shaped-source step is a validated PR. -/
theorem prSourceStep_ret {o : Oracle} {w : Nat} {ict icl : Option Nat} {e : Event}
    {r : Res} {cs : List Call} (h : prSourceStep o w ict icl e = .ret r cs) :
    ValidRet w ict icl r := by
  by_cases h1 : ((getSource e).type == some "issue") = true
  case neg => simp [prSourceStep, h1] at h
  rcases h2 : (getSource e).issueNumber with _ | n
  · simp [prSourceStep, h1, h2] at h
  by_cases h3 : (n != 0) = true
  case neg => simp [prSourceStep, h1, h2, h3] at h
  cases hj : judge w (o.prMetrics (some n)) ict icl <;>
    simp only [prSourceStep, h1, h2, h3, hj, if_true, if_false] at h <;>
      try exact RefOut.noConfusion h
  obtain ⟨pm, mt, ct, cl, hp, hm, hi, hc, hle, hw⟩ := judge_accept_elim hj
  obtain ⟨hr, -⟩ := RefOut.ret.inj h
  exact ⟨pm, mt, ct, cl, by rw [← hr, hp], hm, hi, hc, hle, hw⟩

/-- Every `return` out of the strategy-3 commit lookup is a validated PR. -/
theorem commitStep3_ret {o : Oracle} {ict icl : Option Nat} {sha : String}
    {r : Res} {cs : List Call} (h : commitStep3 o ict icl sha = .ret r cs) :
    ValidRet 604800 ict icl r := by
  rcases hq : o.commitPulls sha with u | prs
  · simp [commitStep3, hq] at h
  rcases prs with _ | ⟨n0, rest⟩
  · simp [commitStep3, hq] at h
  cases hj : judge 604800 (o.prMetrics n0) ict icl <;>
    simp only [commitStep3, hq, hj] at h <;>
      try exact RefOut.noConfusion h
  obtain ⟨pm, mt, ct, cl, hp, hm, hi, hc, hle, hw⟩ := judge_accept_elim hj
  obtain ⟨hr, -⟩ := RefOut.ret.inj h
  exact ⟨pm, mt, ct, cl, by rw [← hr, hp], hm, hi, hc, hle, hw⟩

/-- Every `return` out of a strategy-3 loop body is a validated PR. -/
theorem strategy3Body_ret {o : Oracle} {ict icl : Option Nat} {e : Event}
    {r : Res} {cs : List Call} (h : strategy3Body o ict icl e = .ret r cs) :
    ValidRet 604800 ict icl r := by
  unfold strategy3Body at h
  split at h
  next r0 cs0 heq =>
    obtain ⟨hr, -⟩ := RefOut.ret.inj h
    subst hr
    exact prSourceStep_ret heq
  next cs0 heq => simp at h
  next cs0 heq =>
    split at h
    · split at h
      next r2 cs2 heq2 =>
        obtain ⟨hr, -⟩ := RefOut.ret.inj h
        subst hr
        exact commitStep3_ret heq2
      next cs2 heq2 => simp at h
      next cs2 heq2 => simp at h
    · simp at h

/-- A result returned by a strategy loop was produced by some body
`return`. -/
theorem refLoop_some {body : Event → RefOut} {P : Res → Prop}
    (hb : ∀ e r cs, body e = .ret r cs → P r) :
    ∀ l r cs, refLoop body l = (some r, cs) → P r := by
  intro l
  induction l with
  | nil => intro r cs h; simp [refLoop] at h
  | cons e es ih =>
    intro r cs h
    unfold refLoop at h
    split at h
    next r0 cs0 heq =>
      obtain ⟨h1, -⟩ := Prod.mk.inj h
      exact (Option.some.inj h1) ▸ hb e r0 cs0 heq
    next cs0 heq =>
      split at h
      next r1 cs1 heq2 =>
        obtain ⟨h1, -⟩ := Prod.mk.inj h
        subst h1
        exact ih r cs1 heq2
    next cs0 heq =>
      split at h
      next r1 cs1 heq2 =>
        obtain ⟨h1, -⟩ := Prod.mk.inj h
        subst h1
        exact ih r cs1 heq2

/-- The first component of a strategy-4 result is either absent or a
validated PR. -/
theorem strategy4_res {o : Oracle} {ict icl : Option Nat} {ce : Event}
    {r : Res} {cs : List Call} (h : strategy4 o ict icl ce = (r, cs)) :
    r.1 = none ∨ ValidRet 604800 ict icl r := by
  unfold strategy4 at h
  split at h
  · obtain ⟨h1, -⟩ := Prod.mk.inj h
    exact Or.inl (by rw [← h1])
  next s heq =>
    split at h
    · obtain ⟨h1, -⟩ := Prod.mk.inj h
      exact Or.inl (by rw [← h1])
    · obtain ⟨h1, -⟩ := Prod.mk.inj h
      exact Or.inl (by rw [← h1])
    next n0 rest heq2 =>
      cases hj : judge 604800 (o.prMetrics n0) ict icl <;> rw [hj] at h <;>
        obtain ⟨h1, -⟩ := Prod.mk.inj h
      case accept =>
        obtain ⟨pm, mt, ct, cl, hp, hm, hi, hc, hle, hw⟩ := judge_accept_elim hj
        exact Or.inr ⟨pm, mt, ct, cl, by rw [← h1, hp], hm, hi, hc, hle, hw⟩
      all_goals exact Or.inl (by rw [← h1])

/-- The first component of a successful strategies-2-to-4 pass is either
absent or a PR validated at the wide window. -/
theorem find_rest_ok {o : Oracle} {ict icl : Option Nat} {ce : Event}
    {events : List Event} {r : Res} {cs : List Call}
    (h : find_rest o ict icl ce events = .ok (r, cs)) :
    r.1 = none ∨ ValidRet 604800 ict icl r := by
  unfold find_rest at h
  split at h
  · exact Except.noConfusion h
  split at h
  next r0 cs0 heq =>
    obtain ⟨h1, -⟩ := Prod.mk.inj (Except.ok.inj h)
    exact Or.inr (h1 ▸ refLoop_some (fun e r cs hr => prSourceStep_ret hr) _ r0 cs0 heq)
  next cs2 heq =>
    split at h
    · exact Except.noConfusion h
    split at h
    next r0 cs0 heq2 =>
      obtain ⟨h1, -⟩ := Prod.mk.inj (Except.ok.inj h)
      exact Or.inr (h1 ▸ refLoop_some (fun e r cs hr => strategy3Body_ret hr) _ r0 cs0 heq2)
    next cs3 heq2 =>
      split at h
      next r4 cs4 heq3 =>
        obtain ⟨h1, -⟩ := Prod.mk.inj (Except.ok.inj h)
        exact h1 ▸ strategy4_res heq3

/-- Master shape lemma for the resolver: a successful resolution either has
no PR component or carries a PR validated at one of the two windows. -/
theorem find_ok {o : Oracle} {ca cl : PyTs} {events : List Event}
    {r : Res} {log : List Call}
    (h : find_closing_method o ca cl events = .ok (r, log)) :
    r.1 = none ∨ ValidRet 86400 (parse_timestamp ca) (parse_timestamp cl) r ∨
      ValidRet 604800 (parse_timestamp ca) (parse_timestamp cl) r := by
  unfold find_closing_method at h
  split at h
  · obtain ⟨h1, -⟩ := Prod.mk.inj (Except.ok.inj h)
    exact Or.inl (by rw [← h1])
  split at h
  · obtain ⟨h1, -⟩ := Prod.mk.inj (Except.ok.inj h)
    exact Or.inl (by rw [← h1])
  split at h
  · exact Except.noConfusion h
  next ce heq =>
    split at h
    next r0 cs0 heq2 =>
      obtain ⟨h1, -⟩ := Prod.mk.inj (Except.ok.inj h)
      exact Or.inr (Or.inl (h1 ▸ prSourceStep_ret heq2))
    next cs1 heq2 =>
      split at h
      · exact Except.noConfusion h
      next p heq3 =>
        obtain ⟨h1, -⟩ := Prod.mk.inj (Except.ok.inj h)
        rcases find_rest_ok (heq3.trans (congrArg Except.ok (Prod.mk.eta).symm)) with h2 | h2
        · exact Or.inl (h1 ▸ h2)
        · exact Or.inr (Or.inr (h1 ▸ h2))
    next cs1 heq2 =>
      split at h
      · exact Except.noConfusion h
      next p heq3 =>
        obtain ⟨h1, -⟩ := Prod.mk.inj (Except.ok.inj h)
        rcases find_rest_ok (heq3.trans (congrArg Except.ok (Prod.mk.eta).symm)) with h2 | h2
        · exact Or.inl (h1 ▸ h2)
        · exact Or.inr (Or.inr (h1 ▸ h2))

/-- A successful resolution never sets both components. -/
theorem find_exclusive {o : Oracle} {ca cl : PyTs} {events : List Event}
    {r : Res} {log : List Call}
    (h : find_closing_method o ca cl events = .ok (r, log)) :
    r.1 = none ∨ r.2 = none := by
  rcases find_ok h with h1 | h1 | h1
  · exact Or.inl h1
  · obtain ⟨pm, mt, ct, cl', hr, -⟩ := h1
    exact Or.inr (by rw [hr])
  · obtain ⟨pm, mt, ct, cl', hr, -⟩ := h1
    exact Or.inr (by rw [hr])

/-- When the PR-shaped-source step reaches no judgement, the strategy-3
body proceeds to the commit-based lookup (when a commit id is present). -/
theorem strategy3Body_pass_eq {o : Oracle} {ict icl : Option Nat} {e : Event}
    {cs0 : List Call} (h : prSourceStep o 604800 ict icl e = .pass cs0) :
    strategy3Body o ict icl e =
      appendCalls cs0 (if truthyStr e.commitId then
        commitStep3 o ict icl (e.commitId.getD "") else .pass []) := by
  unfold strategy3Body
  rw [h]
  cases htc : truthyStr e.commitId
  · simp [htc, appendCalls]
  · cases hcs : commitStep3 o ict icl (e.commitId.getD "") <;>
      simp [htc, hcs, appendCalls]

/-! Claim theorems.  Each theorem settles the claim of CLAIMS.json named in
its doc comment. -/

/-- C1: for every issue processed, at most one component of the resolver's
result is non-null — every successful `find_closing_method` value, and
hence the `closing_pr`/`closing_commit` pair that `build_output` records,
is of the form `(pr, none)`, `(none, commit)` or `(none, none)`, never both
non-null. -/
theorem c1_mutual_exclusivity (o : Oracle) (ca cl : PyTs) (events : List Event)
    (issue : Issue) (res res2 : Res) (log log2 : List Call)
    (h : find_closing_method o ca cl events = .ok (res, log))
    (h2 : closing_fields o issue events = .ok (res2, log2)) :
    (res.1 = none ∨ res.2 = none) ∧ (res2.1 = none ∨ res2.2 = none) := by
  refine ⟨find_exclusive h, ?_⟩
  unfold closing_fields at h2
  split at h2
  · exact find_exclusive h2
  · obtain ⟨h1, -⟩ := Prod.mk.inj (Except.ok.inj h2)
    exact Or.inl (by rw [← h1])

/-- Witness for C1, at a strategy-1 resolution carrying a PR. -/
theorem c1_witness :
    (((some prS1 : Option PRMetrics), (none : Option CommitMetrics)).1 = none ∨
      ((some prS1 : Option PRMetrics), (none : Option CommitMetrics)).2 = none) ∧
    (((some prS1 : Option PRMetrics), (none : Option CommitMetrics)).1 = none ∨
      ((some prS1 : Option PRMetrics), (none : Option CommitMetrics)).2 = none) :=
  c1_mutual_exclusivity oracleS1 (.pts 0) (.pts 100) [ceS1] issueS1
    (some prS1, none) (some prS1, none) [.pr (some 3)] [.pr (some 3)] rfl rfl

/-- C2: when the issue's `closed_at` is absent (falsy) or the timeline has
no `closed` event, `find_closing_method` returns `(none, none)` immediately
with an empty fetch trace. -/
theorem c2_no_close_no_fetch (o : Oracle) (ca cl : PyTs) (events : List Event) :
    (cl.truthy = false → find_closing_method o ca cl events = .ok ((none, none), [])) ∧
    (events.filter (fun e => e.kind == some "closed") = [] →
      find_closing_method o ca cl events = .ok ((none, none), [])) := by
  constructor
  · intro h
    unfold find_closing_method
    simp [h]
  · intro h
    unfold find_closing_method
    cases ht : cl.truthy <;> simp [ht, h]

/-- Witness for C2: a null `closed_at` and an empty timeline. -/
theorem c2_witness :
    find_closing_method oracleS1 PyTs.pempty PyTs.pnone [] = .ok ((none, none), []) :=
  (c2_no_close_no_fetch oracleS1 .pempty .pnone []).1 rfl

/-- C3: for a candidate whose merge, issue-creation and issue-close
instants are all present, with the merge not before creation, validation at
the strategy-1 window accepts exactly when the merge-to-close gap is at
most 86400 seconds and validation at the strategies-2-to-4 window accepts
exactly when the gap is at most 604800 seconds; both intervals are closed,
so a gap exactly at the limit is accepted and one strictly beyond it is
rejected. -/
theorem c3_windows (pm : PRMetrics) (mt ct cl : Nat)
    (hmt : pm.mergedAt = some mt) (hge : ct ≤ mt) :
    ((judge 86400 (some pm) (some ct) (some cl) = .accept) ↔ tgap mt cl ≤ 86400) ∧
    ((judge 604800 (some pm) (some ct) (some cl) = .accept) ↔ tgap mt cl ≤ 604800) := by
  have key : ∀ w : Nat,
      (judge w (some pm) (some ct) (some cl) = .accept) ↔ tgap mt cl ≤ w := by
    intro w
    unfold judge
    simp only [PRMetrics.merged, hmt, Option.isSome_some, if_true]
    rw [if_neg (Nat.not_lt.mpr hge)]
    by_cases hw : w < tgap mt cl
    · rw [if_pos hw]
      constructor
      · intro h; exact absurd h (by simp)
      · intro h; exact absurd h (by omega)
    · rw [if_neg hw]
      simp [Nat.not_lt.mp hw]
  exact ⟨key 86400, key 604800⟩

/-- Witness for C3 at the exact strategy-1 boundary (gap of 86400). -/
theorem c3_witness :
    ((judge 86400 (some prW) (some 0) (some 86500) = .accept) ↔ tgap 100 86500 ≤ 86400) ∧
    ((judge 604800 (some prW) (some 0) (some 86500) = .accept) ↔ tgap 100 86500 ≤ 604800) :=
  c3_windows prW 100 0 86500 rfl (by decide)

/-- C4: in strategy 4, once a commit identifier has been extracted from the
close event (direct field or trailing URL segment), a first associated PR
rejected by validation terminates resolution with `(none, none)`, and an
empty associated-PR list yields the direct-commit attribution with the PR
component `none`. -/
theorem c4_strategy4_terminal (o : Oracle) (ict icl : Option Nat) (ce : Event)
    (s : String) (hs : extractSha ce = some s) :
    (o.commitPulls s = .ok [] →
      strategy4 o ict icl ce = ((none, o.commitDetails s), [.pulls s, .commit s])) ∧
    (∀ n0 rest, o.commitPulls s = .ok (n0 :: rest) →
      (judge 604800 (o.prMetrics n0) ict icl = .rejectEarly ∨
        judge 604800 (o.prMetrics n0) ict icl = .rejectWindow) →
      strategy4 o ict icl ce = ((none, none), [.pulls s, .pr n0])) := by
  constructor
  · intro hq
    simp only [strategy4, hs, hq]
  · intro n0 rest hq hrej
    rcases hrej with hj | hj <;> simp only [strategy4, hs, hq, hj]

/-- Witness for C4: a close event with commit `dead` and no associated PR
resolves to the direct-commit attribution. -/
theorem c4_witness :
    strategy4 oracle4 (some 0) (some 5) ce4 =
      ((none, some ⟨"dead"⟩), [.pulls "dead", .commit "dead"]) :=
  (c4_strategy4_terminal oracle4 (some 0) (some 5) ce4 "dead" rfl).1 rfl

/-- C5 counterexample: the commit-based lookup of strategy 3 IS performed
for an event whose source is PR-shaped.  Here `refC5`'s source is PR-shaped
(PR 5), fetching PR 5 fails, and the resolver goes on to query
`commits/abc/pulls` for that same event — the `pulls` call appears in the
fetch trace — returning PR 7 found through the commit. -/
theorem c5_counterexample :
    prShaped refC5 = true ∧ refC5.commitId = some "abc" ∧
    find_closing_method oracleC5 (.pts 0) (.pts 40) [ceC5, refC5] =
      .ok ((some pr7, none), [.pr (some 5), .pulls "abc", .pr (some 7)]) :=
  ⟨rfl, rfl, rfl⟩

/-- C5 amended: in the strategy-3 loop body, a PR-shaped source is fetched
and validated, returning on acceptance; the commit-based lookup is skipped
only when that validation explicitly rejects the candidate; when the fetch
fails, the PR is unmerged, or a required timestamp is missing, the body
falls through to the commit-based lookup, which is also what a
non-PR-shaped event goes to directly. -/
theorem c5_amended (o : Oracle) (ict icl : Option Nat) (e : Event) :
    (∀ n, (getSource e).type = some "issue" → (getSource e).issueNumber = some n →
      n ≠ 0 →
      (judge 604800 (o.prMetrics (some n)) ict icl = .accept →
        strategy3Body o ict icl e = .ret (o.prMetrics (some n), none) [.pr (some n)]) ∧
      ((judge 604800 (o.prMetrics (some n)) ict icl = .rejectEarly ∨
          judge 604800 (o.prMetrics (some n)) ict icl = .rejectWindow) →
        strategy3Body o ict icl e = .skip [.pr (some n)]) ∧
      (judge 604800 (o.prMetrics (some n)) ict icl = .noJudge →
        strategy3Body o ict icl e = appendCalls [.pr (some n)]
          (if truthyStr e.commitId then commitStep3 o ict icl (e.commitId.getD "")
           else .pass []))) ∧
    (prShaped e = false →
      strategy3Body o ict icl e =
        (if truthyStr e.commitId then commitStep3 o ict icl (e.commitId.getD "")
         else .pass [])) := by
  constructor
  · intro n h1 h2 h3
    have ht : ((getSource e).type == some "issue") = true := by simp [h1]
    have hn : (n != 0) = true := by simp [h3]
    refine ⟨?_, ?_, ?_⟩
    · intro hj
      simp only [strategy3Body, prSourceStep, ht, h2, hn, hj, if_true]
    · rintro (hj | hj) <;>
        simp only [strategy3Body, prSourceStep, ht, h2, hn, hj, if_true]
    · intro hj
      have hpass : prSourceStep o 604800 ict icl e = .pass [.pr (some n)] := by
        simp only [prSourceStep, ht, h2, hn, hj, if_true]
      exact strategy3Body_pass_eq hpass
  · intro hps
    have hpass : prSourceStep o 604800 ict icl e = .pass [] := by
      unfold prSourceStep
      by_cases ht : ((getSource e).type == some "issue") = true
      · rw [prShaped, ht, Bool.true_and] at hps
        rcases hnum : (getSource e).issueNumber with _ | n
        · simp [ht, hnum]
        · have hn0 : (n != 0) = false := by simpa [truthyNum, hnum] using hps
          simp [ht, hnum, hn0]
      · have ht' : ((getSource e).type == some "issue") = false := by simpa using ht
        simp [ht']
    rw [strategy3Body_pass_eq hpass]
    cases htc : truthyStr e.commitId
    · simp [htc, appendCalls]
    · cases hcs : commitStep3 o ict icl (e.commitId.getD "") <;>
        simp [htc, hcs, appendCalls]

/-- Witness for C5's amended claim: the fall-through case at the
counterexample's event. -/
theorem c5_amended_witness :
    strategy3Body oracleC5 (some 0) (some 40) refC5 =
      appendCalls [Call.pr (some 5)]
        (if truthyStr refC5.commitId then
          commitStep3 oracleC5 (some 0) (some 40) (refC5.commitId.getD "")
         else .pass []) :=
  ((c5_amended oracleC5 (some 0) (some 40) refC5).1 5 rfl rfl (by decide)).2.2 rfl

/-- A non-truthy timestamp value does not parse. -/
theorem parse_none_of_not_truthy {x : PyTs} (h : x.truthy = false) :
    parse_timestamp x = none := by
  cases x <;> simp_all [PyTs.truthy, parse_timestamp]

/-- A missing start instant makes the difference absent. -/
theorem time_diff_none_left {s e : PyTs} (h : parse_timestamp s = none) :
    calculate_time_diff s e = none := by
  unfold calculate_time_diff
  rw [h]
/-- With no present-null comment timestamps, `calculate_timestamps` returns
normally and reports metrics with missing required timestamps as absent. -/
theorem calc_ts_ok_of_no_null (issue : Issue) (comments : List Comment)
    (hc : ∀ c ∈ comments, c.createdAt ≠ PyTs.pnone) :
    ∃ m, calculate_timestamps issue comments = .ok m ∧
      ((issue.createdAt.truthy = false ∨ issue.closedAt.truthy = false) →
        m.time_to_close_seconds = none ∧ m.time_open_days = none) ∧
      (issue.createdAt.truthy = false →
        m.time_to_first_comment_seconds = none ∧
        m.time_to_first_response_seconds = none) := by
  rcases hcm : comments with _ | ⟨c0, cs⟩
  · rcases hv : calculate_timestamps issue [] with u | m
    · simp only [calculate_timestamps] at hv
      exact Except.noConfusion hv
    · simp only [calculate_timestamps] at hv
      obtain rfl := Except.ok.inj hv
      refine ⟨_, rfl, ?_, ?_⟩
      · rintro (h | h) <;> exact ⟨by simp [h], by simp [h]⟩
      · intro h
        exact ⟨rfl, rfl⟩
  · subst hcm
    cases hct : issue.createdAt.truthy
    · rcases hv : calculate_timestamps issue (c0 :: cs) with u | m
      · simp only [calculate_timestamps, hct] at hv
        exact Except.noConfusion hv
      · simp only [calculate_timestamps, hct] at hv
        obtain rfl := Except.ok.inj hv
        refine ⟨_, rfl, ?_, ?_⟩
        · intro h
          exact ⟨by simp, by simp⟩
        · intro h
          exact ⟨rfl, rfl⟩
    · have h0 : c0.createdAt ≠ .pnone := hc c0 (by simp)
      have hs : ∀ x ∈ cs, x.createdAt ≠ .pnone := fun x hx => hc x (by simp [hx])
      obtain ⟨fc, hfc, -, -, -⟩ := pyMinByAux_sound (fun c => c.createdAt) cs c0 h0 hs
      rcases hfil : (c0 :: cs).filter (fun c => !(c.userLogin == issue.userLogin))
          with _ | ⟨o0, os⟩
      · rcases hv : calculate_timestamps issue (c0 :: cs) with u | m
        · simp only [calculate_timestamps, hct, hfc, hfil] at hv
          exact Except.noConfusion hv
        · simp only [calculate_timestamps, hct, hfc, hfil] at hv
          obtain rfl := Except.ok.inj hv
          refine ⟨_, rfl, ?_, ?_⟩
          · rintro (h | h)
            · exact absurd h (by simp)
            · exact ⟨by simp [h], by simp [h]⟩
          · intro h
            exact absurd h (by simp)
      · have ho0 : o0.createdAt ≠ .pnone := by
          refine hc o0 (List.mem_of_mem_filter
            (p := fun c => !(c.userLogin == issue.userLogin)) ?_)
          rw [hfil]
          simp
        have hos : ∀ x ∈ os, x.createdAt ≠ .pnone := by
          intro x hx
          refine hc x (List.mem_of_mem_filter
            (p := fun c => !(c.userLogin == issue.userLogin)) ?_)
          rw [hfil]
          simp [hx]
        obtain ⟨fr, hfr, -, -, -⟩ := pyMinByAux_sound (fun c => c.createdAt) os o0 ho0 hos
        rcases hv : calculate_timestamps issue (c0 :: cs) with u | m
        · simp only [calculate_timestamps, hct, hfc, hfil, hfr] at hv
          exact Except.noConfusion hv
        · simp only [calculate_timestamps, hct, hfc, hfil, hfr] at hv
          obtain rfl := Except.ok.inj hv
          refine ⟨_, rfl, ?_, ?_⟩
          · rintro (h | h)
            · exact absurd h (by simp)
            · exact ⟨by simp [h], by simp [h]⟩
          · intro h
            exact absurd h (by simp)

/-- With no present-null event timestamps, `calculate_reopen_metrics`
returns normally and reports metrics with missing required timestamps as
absent. -/
theorem calc_reopen_ok_of_no_null (issue : Issue) (events : List Event)
    (he : ∀ e ∈ events, e.createdAt ≠ PyTs.pnone) :
    ∃ r, calculate_reopen_metrics issue events = .ok r ∧
      ((issue.createdAt.truthy = false ∨ issue.closedAt.truthy = false) →
        r.final_resolution_time_seconds = none) ∧
      ((∀ e ∈ events, e.createdAt.truthy = false) →
        r.time_to_reopen_seconds = none) := by
  rcases hre : events.filter (fun e => e.kind == some "reopened") with _ | ⟨r0, rs⟩
  · rcases hv : calculate_reopen_metrics issue events with u | r
    · simp only [calculate_reopen_metrics, hre] at hv
      exact Except.noConfusion hv
    · simp only [calculate_reopen_metrics, hre] at hv
      obtain rfl := Except.ok.inj hv
      exact ⟨_, rfl, fun _ => rfl, fun _ => rfl⟩
  · have hmemR : ∀ x ∈ r0 :: rs, x ∈ events := by
      intro x hx
      refine List.mem_of_mem_filter (p := fun e => e.kind == some "reopened") ?_
      rw [hre]
      exact hx
    have hr0 : r0.createdAt ≠ .pnone := he r0 (hmemR r0 (by simp))
    have hrs : ∀ x ∈ rs, x.createdAt ≠ .pnone := fun x hx => he x (hmemR x (by simp [hx]))
    rcases hcl : events.filter (fun e => e.kind == some "closed") with _ | ⟨c0, cs⟩
    · rcases hv : calculate_reopen_metrics issue events with u | r
      · simp only [calculate_reopen_metrics, hre, hcl] at hv
        exact Except.noConfusion hv
      · simp only [calculate_reopen_metrics, hre, hcl] at hv
        obtain rfl := Except.ok.inj hv
        refine ⟨_, rfl, ?_, fun _ => rfl⟩
        rintro (h | h) <;> · split <;> simp [h]
    · have hmemC : ∀ x ∈ c0 :: cs, x ∈ events := by
        intro x hx
        refine List.mem_of_mem_filter (p := fun e => e.kind == some "closed") ?_
        rw [hcl]
        exact hx
      have hc0 : c0.createdAt ≠ .pnone := he c0 (hmemC c0 (by simp))
      have hcs : ∀ x ∈ cs, x.createdAt ≠ .pnone := fun x hx => he x (hmemC x (by simp [hx]))
      obtain ⟨fc, hfc, hfcmem, -, -⟩ := pyMinByAux_sound (fun e => e.createdAt) cs c0 hc0 hcs
      obtain ⟨fr, hfr, -, -, -⟩ := pyMinByAux_sound (fun e => e.createdAt) rs r0 hr0 hrs
      rcases hv : calculate_reopen_metrics issue events with u | r
      · simp only [calculate_reopen_metrics, hre, hcl, hfc, hfr] at hv
        exact Except.noConfusion hv
      · simp only [calculate_reopen_metrics, hre, hcl, hfc, hfr] at hv
        obtain rfl := Except.ok.inj hv
        refine ⟨_, rfl, ?_, ?_⟩
        · rintro (h | h) <;> · split <;> simp [h]
        · intro hall
          have hfcmem2 : fc ∈ events := by
            rcases hfcmem with rfl | hmem
            · exact hmemC fc (by simp)
            · exact hmemC fc (by simp [hmem])
          exact time_diff_none_left (parse_none_of_not_truthy (hall fc hfcmem2))

/-- C6 counterexample: with a present-but-null `created_at` next to a
well-formed one, both calculators raise a `TypeError` inside a `min`/`max`
key comparison instead of reporting the affected metric as absent. -/
theorem c6_counterexample :
    calculate_timestamps issue9 comments6 = .error () ∧
    calculate_reopen_metrics issue6 events6 = .error () :=
  ⟨rfl, rfl⟩

/-- C6 amended: for every issue, comment set and timeline whose comment and
event `created_at` values are missing only as absent keys or empty strings
(never a present null), `calculate_timestamps` and
`calculate_reopen_metrics` return without raising and report each metric
whose required timestamps are missing as absent; a present-null timestamp
next to a second record can instead raise a `TypeError` in a key
comparison. -/
theorem c6_missing_timestamps (issue : Issue) (comments : List Comment)
    (events : List Event)
    (hc : ∀ c ∈ comments, c.createdAt ≠ PyTs.pnone)
    (he : ∀ e ∈ events, e.createdAt ≠ PyTs.pnone) :
    ∃ m r, calculate_timestamps issue comments = .ok m ∧
      calculate_reopen_metrics issue events = .ok r ∧
      ((issue.createdAt.truthy = false ∨ issue.closedAt.truthy = false) →
        m.time_to_close_seconds = none ∧ m.time_open_days = none ∧
        r.final_resolution_time_seconds = none) ∧
      (issue.createdAt.truthy = false →
        m.time_to_first_comment_seconds = none ∧
        m.time_to_first_response_seconds = none) ∧
      ((∀ e ∈ events, e.createdAt.truthy = false) →
        r.time_to_reopen_seconds = none) := by
  obtain ⟨m, hm, hp1, hp2⟩ := calc_ts_ok_of_no_null issue comments hc
  obtain ⟨r, hr, hq1, hq2⟩ := calc_reopen_ok_of_no_null issue events he
  exact ⟨m, r, hm, hr, fun hf => ⟨(hp1 hf).1, (hp1 hf).2, hq1 hf⟩, hp2, hq2⟩

/-- Witness for C6's amended claim at a concrete absent-timestamp input. -/
theorem c6_witness :
    ∃ m r, calculate_timestamps issue6 comments6W = .ok m ∧
      calculate_reopen_metrics issue6 events6W = .ok r ∧
      ((issue6.createdAt.truthy = false ∨ issue6.closedAt.truthy = false) →
        m.time_to_close_seconds = none ∧ m.time_open_days = none ∧
        r.final_resolution_time_seconds = none) ∧
      (issue6.createdAt.truthy = false →
        m.time_to_first_comment_seconds = none ∧
        m.time_to_first_response_seconds = none) ∧
      ((∀ e ∈ events6W, e.createdAt.truthy = false) →
        r.time_to_reopen_seconds = none) :=
  c6_missing_timestamps issue6 comments6W events6W (by decide) (by decide)

/-- Ordering transfers from key rank to timestamp value on well-formed
timestamps. -/
theorem tsv_le_of_kv {p q : PyTs} (hp : ∃ a, p = PyTs.pts a) (hq : ∃ b, q = PyTs.pts b)
    (h : kv p ≤ kv q) : tsv p ≤ tsv q := by
  obtain ⟨a, rfl⟩ := hp
  obtain ⟨b, rfl⟩ := hq
  simpa [kv, tsv] using h

/-- C7: given present issue creation and close timestamps, no strategy ever
returns as closing attribution a PR whose merge instant strictly precedes
the issue's creation instant. -/
theorem c7_no_premature_pr (o : Oracle) (ca cl : PyTs) (events : List Event)
    (pm : PRMetrics) (c2 : Option CommitMetrics) (log : List Call)
    (ct cls mt : Nat)
    (hct : parse_timestamp ca = some ct) (_hcl : parse_timestamp cl = some cls)
    (h : find_closing_method o ca cl events = .ok ((some pm, c2), log))
    (hmt : pm.mergedAt = some mt) : ct ≤ mt := by
  rcases find_ok h with h1 | hv | hv <;>
    first
    | exact absurd h1 (by simp)
    | · obtain ⟨pm', mt', ct', cl', hr, hm, hi, hc, hle, -⟩ := hv
        obtain ⟨hp, -⟩ := Prod.mk.inj hr
        obtain rfl := Option.some.inj hp
        rw [hct] at hi
        obtain rfl := Option.some.inj hi
        rw [hmt] at hm
        obtain rfl := Option.some.inj hm
        exact hle

/-- Witness for C7 at the strategy-1 scenario (creation 0, merge 90). -/
theorem c7_witness : (0 : Nat) ≤ 90 :=
  c7_no_premature_pr oracleS1 (.pts 0) (.pts 100) [ceS1] prS1 none [.pr (some 3)]
    0 100 90 rfl rfl rfl rfl

/-- C8: when strategy 1's directly-sourced candidate passes validation, the
resolver returns that PR attribution having performed exactly one candidate
fetch: no cross-referenced or referenced event is examined and no further
fetch of any candidate occurs. -/
theorem c8_strategy1_short_circuit (o : Oracle) (ca cl : PyTs) (events : List Event)
    (ce0 : Event) (ces : List Event) (ce : Event) (n : Nat)
    (h1 : cl.truthy = true)
    (h2 : events.filter (fun e => e.kind == some "closed") = ce0 :: ces)
    (h3 : pyMaxByAux (fun e => e.createdAt) ce0 ces = .ok ce)
    (h4 : (getSource ce).type = some "issue")
    (h5 : (getSource ce).issueNumber = some n)
    (h6 : n ≠ 0)
    (h7 : judge 86400 (o.prMetrics (some n)) (parse_timestamp ca) (parse_timestamp cl)
      = .accept) :
    find_closing_method o ca cl events =
      .ok ((o.prMetrics (some n), none), [.pr (some n)]) := by
  have ht : ((getSource ce).type == some "issue") = true := by simp [h4]
  have hn : (n != 0) = true := by simp [h6]
  have hps : prSourceStep o 86400 (parse_timestamp ca) (parse_timestamp cl) ce =
      .ret (o.prMetrics (some n), none) [.pr (some n)] := by
    simp only [prSourceStep, ht, h5, hn, h7, if_true]
  simp [find_closing_method, h1, h2, h3, hps]

/-- Witness for C8 at the strategy-1 scenario. -/
theorem c8_witness :
    find_closing_method oracleS1 (.pts 0) (.pts 100) [ceS1] =
      .ok ((oracleS1.prMetrics (some 3), none), [.pr (some 3)]) :=
  c8_strategy1_short_circuit oracleS1 (.pts 0) (.pts 100) [ceS1] ceS1 [] ceS1 3
    rfl rfl rfl rfl rfl (by decide) rfl

/-- C9: with the issue's creation timestamp present and every comment
timestamp well-formed, `time_to_first_response_seconds` is computed only
over the comments whose author differs from the issue's author — it is
absent when no such comment exists, and otherwise equals the seconds from
issue creation to the earliest such comment's creation timestamp. -/
theorem c9_first_response (issue : Issue) (comments : List Comment) (t0 : Nat)
    (hca : issue.createdAt = PyTs.pts t0)
    (hall : ∀ c ∈ comments, ∃ k, c.createdAt = PyTs.pts k) :
    ∃ m, calculate_timestamps issue comments = .ok m ∧
      ((comments.filter (fun c => !(c.userLogin == issue.userLogin)) = []) →
        m.time_to_first_response_seconds = none) ∧
      (∀ o0 os,
        comments.filter (fun c => !(c.userLogin == issue.userLogin)) = o0 :: os →
        ∃ c ∈ o0 :: os, m.time_to_first_response_seconds =
            some ((tsv c.createdAt : Int) - (t0 : Int)) ∧
          ∀ c2 ∈ o0 :: os, tsv c.createdAt ≤ tsv c2.createdAt) := by
  have hct : issue.createdAt.truthy = true := by rw [hca]; rfl
  rcases hcm : comments with _ | ⟨c0, cs⟩
  · rcases hv : calculate_timestamps issue [] with u | m
    · simp only [calculate_timestamps, hct] at hv
      exact Except.noConfusion hv
    · simp only [calculate_timestamps, hct] at hv
      obtain rfl := Except.ok.inj hv
      refine ⟨_, rfl, fun _ => rfl, ?_⟩
      intro o0 os hfil
      exact absurd hfil (by simp)
  · subst hcm
    have h0 : c0.createdAt ≠ .pnone := by
      obtain ⟨k, hk⟩ := hall c0 (by simp)
      simp [hk]
    have hs : ∀ x ∈ cs, x.createdAt ≠ .pnone := by
      intro x hx
      obtain ⟨k, hk⟩ := hall x (by simp [hx])
      simp [hk]
    obtain ⟨fc, hfc, -, -, -⟩ := pyMinByAux_sound (fun c => c.createdAt) cs c0 h0 hs
    rcases hfil : (c0 :: cs).filter (fun c => !(c.userLogin == issue.userLogin))
        with _ | ⟨o0, os⟩
    · rcases hv : calculate_timestamps issue (c0 :: cs) with u | m
      · simp only [calculate_timestamps, hct, hfc, hfil] at hv
        exact Except.noConfusion hv
      · simp only [calculate_timestamps, hct, hfc, hfil] at hv
        obtain rfl := Except.ok.inj hv
        refine ⟨_, rfl, fun _ => rfl, ?_⟩
        intro o0 os hfil2
        rw [hfil] at hfil2
        exact List.noConfusion hfil2
    · have hmemF : ∀ x ∈ o0 :: os, x ∈ c0 :: cs := by
        intro x hx
        refine List.mem_of_mem_filter
          (p := fun c => !(c.userLogin == issue.userLogin)) ?_
        rw [hfil]
        exact hx
      have ho0 : o0.createdAt ≠ .pnone := by
        obtain ⟨k, hk⟩ := hall o0 (hmemF o0 (by simp))
        simp [hk]
      have hos : ∀ x ∈ os, x.createdAt ≠ .pnone := by
        intro x hx
        obtain ⟨k, hk⟩ := hall x (hmemF x (by simp [hx]))
        simp [hk]
      obtain ⟨fr, hfr, hfrmem, hfrle, hfrmin⟩ :=
        pyMinByAux_sound (fun c => c.createdAt) os o0 ho0 hos
      have hfrIn : fr ∈ o0 :: os := by
        rcases hfrmem with rfl | hm2
        · simp
        · simp [hm2]
      rcases hv : calculate_timestamps issue (c0 :: cs) with u | m
      · simp only [calculate_timestamps, hct, hfc, hfil, hfr] at hv
        exact Except.noConfusion hv
      · simp only [calculate_timestamps, hct, hfc, hfil, hfr] at hv
        obtain rfl := Except.ok.inj hv
        refine ⟨_, rfl, fun h => absurd (hfil.symm.trans h) (by simp), ?_⟩
        intro o0' os' heq
        obtain ⟨rfl, rfl⟩ := List.cons.inj (hfil.symm.trans heq)
        refine ⟨fr, hfrIn, ?_, ?_⟩
        · obtain ⟨k, hk⟩ := hall fr (hmemF fr hfrIn)
          rw [hca, hk]
          simp [calculate_time_diff, parse_timestamp, tsv]
        · intro c2 hc2
          have hp : ∃ a, fr.createdAt = PyTs.pts a := hall fr (hmemF fr hfrIn)
          have hq : ∃ b, c2.createdAt = PyTs.pts b := hall c2 (hmemF c2 hc2)
          rcases List.mem_cons.mp hc2 with rfl | hm3
          · exact tsv_le_of_kv hp hq hfrle
          · exact tsv_le_of_kv hp hq (hfrmin c2 hm3)

/-- Witness for C9 at the claim's example: author `alice`, comments by
`alice` at 0 and `bob` at 100, creation at 0. -/
theorem c9_witness :
    ∃ m, calculate_timestamps issue9 comments9 = .ok m ∧
      ((comments9.filter (fun c => !(c.userLogin == issue9.userLogin)) = []) →
        m.time_to_first_response_seconds = none) ∧
      (∀ o0 os,
        comments9.filter (fun c => !(c.userLogin == issue9.userLogin)) = o0 :: os →
        ∃ c ∈ o0 :: os, m.time_to_first_response_seconds =
            some ((tsv c.createdAt : Int) - ((0 : Nat) : Int)) ∧
          ∀ c2 ∈ o0 :: os, tsv c.createdAt ≤ tsv c2.createdAt) :=
  c9_first_response issue9 comments9 0 rfl
    (by
      intro c hc
      simp only [comments9] at hc
      rcases List.mem_cons.mp hc with rfl | hc2
      · exact ⟨0, rfl⟩
      rcases List.mem_cons.mp hc2 with rfl | hc3
      · exact ⟨100, rfl⟩
      · exact absurd hc3 (by simp))

/-- C10 counterexample: the source falls back to `login` whenever
`username` is falsy, not only when it is absent — with `username` present
but empty and `login` equal to `vue-bot`, `detect_bot_close` returns
`True` while the claim's reading (login consulted only when `username` is
absent, and a present non-matching `username` yielding `False`) demands
`False`. -/
theorem c10_counterexample :
    detect_bot_close cex10 = true ∧ detect_bot_close_claimed cex10 = false :=
  ⟨rfl, rfl⟩

/-- C10 amended: `detect_bot_close` is total and returns `True` exactly
when the input is an object whose `closed_by` field is an object and whose
`username` field — or, whenever `username` is falsy (absent, null, empty,
zero, false or an empty container), its `login` field — is a string that,
stripped of surrounding whitespace and lowercased, equals `stale[bot]` or
`vue-bot`. -/
theorem c10_characterization (v : JVal) :
    detect_bot_close v = true ↔
      (isObj v = true ∧ isObj (jget v "closed_by") = true ∧
        ∃ s, (if jTruthy (jget (jget v "closed_by") "username") then
                jget (jget v "closed_by") "username"
              else jget (jget v "closed_by") "login") = JVal.jstr s ∧
          (normalize s = "stale[bot]" ∨ normalize s = "vue-bot")) := by
  by_cases h1 : isObj v = true
  case neg =>
    have h1' : isObj v = false := by simpa using h1
    simp [detect_bot_close, h1']
  by_cases h2 : isObj (jget v "closed_by") = true
  case neg =>
    have h2' : isObj (jget v "closed_by") = false := by simpa using h2
    simp [detect_bot_close, h1, h2']
  cases hu : (if jTruthy (jget (jget v "closed_by") "username") then
      jget (jget v "closed_by") "username"
    else jget (jget v "closed_by") "login") <;>
    simp [detect_bot_close, h1, h2, hu]

/-- Witness for C10's amended characterization at a bot-closed input. -/
theorem c10_witness : detect_bot_close bot10 = true :=
  (c10_characterization bot10).mpr ⟨rfl, rfl, "  Stale[Bot] ", rfl, Or.inl rfl⟩
